import Mathlib

/-!
Verification development for the interruptible-websocket-proxy repository.

The Go sources are shallowly embedded as executable Lean definitions:

- the per-pipe copy loop (the copyBuffer method on the pipe type,
  together with the PersistentPipe fields it touches) becomes a pure
  step function over an explicit pipe state plus the outcome of the
  read and write calls of one loop iteration;
- the backend pool (BackendWSConnPool and its operations AddToPool,
  GetConn, MarkError and the two background goroutine bodies) becomes
  a state-transition system over an explicit pool state, with the
  blocking GetConn loop given fuel and the dial call an oracle;
- the pipe manager's CreatePipe becomes a function over the client map
  together with the value received from its completion channel.

Machine details that no statement here depends on are recorded in
comments next to the definition they concern.
-/

namespace InterruptibleWebsocketProxy

/-- Direction of a copy loop; source type CopyDirection with constants
CopyToBackend and CopyFromBacked. -/
inductive CopyDirection where
  | CopyToBackend
  | CopyFromBacked
deriving DecidableEq, Repr

/-- The fields of the pipe (PersistentPipe / PreEmptablePipe) that the
copyBuffer loop reads and writes.  Bytes are Nat; Go error values are
modelled as Nat codes, with Option none standing for a nil error.
The BackendErr field is the pipe's BackendErr member (none = nil),
backendBuffer is the staging byte slice and bufferByteLimit its
configured ceiling.  The Conn fields themselves are external streams
and appear only through the read/write outcomes fed to each
iteration. -/
structure PipeState where
  BackendErr : Option Nat
  backendBuffer : List Nat
  bufferByteLimit : Nat
deriving DecidableEq, Repr

/-- Error value returned by a Read call: io.EOF or some other error
code. -/
inductive ReadError where
  | eof
  | other (code : Nat)
deriving DecidableEq, Repr

/-- Outcome of one src().Read(buf) call: the bytes read (nr = length)
and the error returned alongside them (none = nil).  The source reads
into a 32 KiB scratch slice (shrunk for an io.LimitedReader source), so
in the program the byte count of one read is bounded by that slice
length; no claim below depends on the bound, so it is not threaded
through the state. -/
structure ReadOutcome where
  bytes : List Nat
  srcReadErr : Option ReadError
deriving DecidableEq, Repr

/-- Outcome of one dst().Write call: the count nw that the write
reported and the error value ew it returned (none = nil).  nw is an
Int because the source explicitly guards against a negative count. -/
structure WriteOutcome where
  nw : Int
  ew : Option Nat
deriving DecidableEq, Repr

/-- Reason the copyBuffer loop left its for-loop (the break statements
of the source).  The local err variable of copyBuffer is never consumed
after the loop, so only the break site matters. -/
inductive CopyExit where
  | bufferOverflow
  | writeErrorBreak
  | shortWriteBreak
  | cleanEOF
  | clientReadError (code : Nat)
deriving DecidableEq, Repr

/-- Result of one iteration of the copyBuffer for-loop: the exit taken
(none = the loop continues), the pipe state afterwards, the bytes the
destination stream actually received during the iteration, and the
values sent on errChan during the iteration. -/
structure CopyStepOut where
  exit : Option CopyExit
  state : PipeState
  wrote : List Nat
  emits : List (Option Nat)
deriving DecidableEq, Repr

/-- Error code standing for the fmt.Errorf invalid-write error built
when a Write reports a negative or oversized count with a nil error. -/
def invalidWriteCode : Nat := 999

/-- Encoding of a read error as the stored BackendErr code. -/
def readErrCode : ReadError → Nat
  | .eof => 0
  | .other code => code + 1

/-- Tail of one copyBuffer iteration: the srcReadErr checks after the
write section.  For CopyToBackend a client read error breaks the loop
(io.EOF breaks without recording an error); for CopyFromBacked a
backend read error sets BackendErr and sends it on errChan when
BackendErr was nil, then breaks only when the staging buffer already
exceeds its limit. -/
def readErrTail (cd : CopyDirection) (pep : PipeState) (r : ReadOutcome)
    (wrote : List Nat) : CopyStepOut :=
  match cd, r.srcReadErr with
  | _, none => ⟨none, pep, wrote, []⟩
  | .CopyToBackend, some .eof => ⟨some .cleanEOF, pep, wrote, []⟩
  | .CopyToBackend, some (.other code) => ⟨some (.clientReadError code), pep, wrote, []⟩
  | .CopyFromBacked, some re =>
    let out :=
      if pep.BackendErr = none then
        let e : Option Nat := some (readErrCode re)
        ({ pep with BackendErr := e }, [e])
      else (pep, ([] : List (Option Nat)))
    if out.1.backendBuffer.length > out.1.bufferByteLimit then
      ⟨some .bufferOverflow, out.1, wrote, out.2⟩
    else
      ⟨none, out.1, wrote, out.2⟩

/-- The nw/ew normalization right after the Write call: nw is forced
to 0 (and a non-nil invalid-write error substituted for a nil ew) when
the reported count is negative or larger than the nr bytes handed to
the write. -/
def normalizeWrite (nrw : Nat) (w : WriteOutcome) : Int × Option Nat :=
  if w.nw < 0 ∨ (nrw : Int) < w.nw then
    (0, if w.ew = none then some invalidWriteCode else w.ew)
  else (w.nw, w.ew)

/-- The write section of one copyBuffer iteration followed by the
read-error tail: buf are the bytes in the scratch slice, nrw the count
handed to Write.  On a failing or short write the CopyToBackend
direction appends buf[0:nr] to the staging buffer and continues (its
errChan sends are commented out in the source), the CopyFromBacked
direction breaks; on full success a nonempty staging buffer is reset
to length 0 (this clear is not guarded by the direction in the
source). -/
def writeAndTail (cd : CopyDirection) (pep : PipeState) (r : ReadOutcome)
    (buf : List Nat) (nrw : Nat) (w : WriteOutcome) : CopyStepOut :=
  if (normalizeWrite nrw w).2 ≠ none then
    if cd = .CopyToBackend then
      ⟨none, { pep with backendBuffer := pep.backendBuffer ++ buf.take nrw },
        buf.take (normalizeWrite nrw w).1.toNat, []⟩
    else
      ⟨some .writeErrorBreak, pep, buf.take (normalizeWrite nrw w).1.toNat, []⟩
  else if (nrw : Int) ≠ (normalizeWrite nrw w).1 then
    if cd = .CopyToBackend then
      ⟨none, { pep with backendBuffer := pep.backendBuffer ++ buf.take nrw },
        buf.take (normalizeWrite nrw w).1.toNat, []⟩
    else
      ⟨some .shortWriteBreak, pep, buf.take (normalizeWrite nrw w).1.toNat, []⟩
  else
    readErrTail cd
      (if pep.backendBuffer.length > 0 then { pep with backendBuffer := [] } else pep)
      r (buf.take (normalizeWrite nrw w).1.toNat)

/-- One iteration of the for-loop of copyBuffer (source: the copyBuffer
method, part_006 lines 59-137), for the given direction.  The read and
write outcomes of the iteration are inputs.  Two source details are
worth flagging because theorems below turn on them.  First, in the
flush branch the source executes
  buf = append(pep.backendBuffer, buf[0:nr]...)
  nr = len(pep.backendBuffer)
and the append does not change pep.backendBuffer itself, so nr becomes
the OLD buffer length and the subsequent Write(buf[0:nr]) covers only
the previously buffered bytes, not the appended fresh ones.  Second,
every errChan send on the CopyToBackend paths is commented out in the
source; the only live send is the BackendErr send in the
CopyFromBacked read-error branch (modelled in readErrTail). -/
def copyBufferStep (cd : CopyDirection) (pep : PipeState) (r : ReadOutcome)
    (w : WriteOutcome) : CopyStepOut :=
  if cd = .CopyFromBacked ∧ pep.BackendErr ≠ none then
    -- backward loop parked while the backend slot is vacant; it still
    -- polices the staging-buffer ceiling before sleeping
    if pep.backendBuffer.length > pep.bufferByteLimit then
      ⟨some .bufferOverflow, pep, [], []⟩
    else
      ⟨none, pep, [], []⟩
  else if r.bytes.length > 0 then
    if cd = .CopyToBackend ∧ pep.BackendErr ≠ none then
      -- backend absent: stage the fresh bytes, or overflow
      if pep.backendBuffer.length + r.bytes.length > pep.bufferByteLimit then
        ⟨some .bufferOverflow, pep, [], []⟩
      else
        ⟨none, { pep with backendBuffer := pep.backendBuffer ++ r.bytes }, [], []⟩
    else if cd = .CopyToBackend ∧ pep.BackendErr = none ∧
        pep.backendBuffer.length > 0 then
      -- flush branch: buf becomes the concatenation but nr becomes the
      -- OLD buffer length (see the doc comment above)
      writeAndTail cd pep r (pep.backendBuffer ++ r.bytes) pep.backendBuffer.length w
    else
      writeAndTail cd pep r r.bytes r.bytes.length w
  else
    readErrTail cd pep r []

/-- Runs the copyBuffer loop over a list of per-iteration read/write
outcomes, accumulating delivered byte chunks and errChan sends, until a
break or until the inputs run out (none = the loop is still going). -/
def copyBufferRun (cd : CopyDirection) (pep : PipeState) :
    List (ReadOutcome × WriteOutcome) →
    Option CopyExit × PipeState × List (List Nat) × List (Option Nat)
  | [] => (none, pep, [], [])
  | (r, w) :: rest =>
    let out := copyBufferStep cd pep r w
    match out.exit with
    | some e => (some e, out.state, [out.wrote], out.emits)
    | none =>
      let tail := copyBufferRun cd out.state rest
      (tail.1, tail.2.1, out.wrote :: tail.2.2.1, out.emits ++ tail.2.2.2)

/-- The blocking tail of CreatePipe is return <-errChan: the call
returns the first value ever sent on the manager channel, and does not
return at all (none) when nothing is ever sent. -/
def createPipeReturn (sent : List (Option Nat)) : Option (Option Nat) :=
  sent.head?

/-- Error metadata of a backend entry; source type ErrorInfo
(timestamps as Nat, none = never stamped). -/
structure ErrorInfo where
  lastCheckedTime : Option Nat
  errorCount : Nat
deriving DecidableEq, Repr

/-- One backend entry; source type BackendConn, which embeds a net.Conn
(Conn none models a nil net.Conn, some v a live connection) next to the
immutable connUrl (URLs as Nat) and the ErrorInfo. -/
structure BackendConn where
  Conn : Option Nat
  connUrl : Nat
  info : ErrorInfo
deriving DecidableEq, Repr

/-- The pool state; source type BackendWSConnPool (part_008 lines
213-230).  The sync.Map fields are modelled as lists: the registered
set as a list of URLs and the in-use map as a list of entries keyed by
connUrl.  idleConnCount is an Int because the source decrements the
int64 counter without a floor.  In Go the queue cells hold pointers
mutated in place; here entries are values, and operations that mutate
an entry return the updated value, standing for what the caller's
pointer afterwards shows. -/
structure PoolState where
  availableBackendUrls : List Nat
  registeredBackendUrls : List Nat
  inUseMap : List BackendConn
  idleConnections : List BackendConn
  erroredConnections : List BackendConn
  idleConnCount : Int
  maxIdleConnections : Int
  maxAllowedErrorCount : Nat
deriving DecidableEq, Repr

/-- Error code for the duplicate-registration error of AddToPool. -/
def errAlreadyRegistered : Nat := 1

/-- AddToPool (part_008 lines 288-296): a URL already in the
registered set is rejected with an error, otherwise it is appended to
availableBackendUrls and added to the registered set.  The second
component is the returned error (none = nil). -/
def AddToPool (bp : PoolState) (url : Nat) : PoolState × Option Nat :=
  if url ∈ bp.registeredBackendUrls then (bp, some errAlreadyRegistered)
  else
    ({ bp with
        availableBackendUrls := bp.availableBackendUrls ++ [url],
        registeredBackendUrls := url :: bp.registeredBackendUrls }, none)

/-- sync.Map.Store on the in-use map, keyed by connUrl. -/
def inUseStore (m : List BackendConn) (conn : BackendConn) : List BackendConn :=
  m.filter (fun e => e.connUrl != conn.connUrl) ++ [conn]

/-- sync.Map.Delete on the in-use map, keyed by connUrl. -/
def inUseDelete (m : List BackendConn) (url : Nat) : List BackendConn :=
  m.filter (fun e => e.connUrl != url)

/-- MarkError (part_008 lines 298-304): unconditionally deletes the
entry from the in-use map, stamps lastCheckedTime with the current
time, increments errorCount, and appends the entry to the errored
queue.  There is no guard against an entry that is already in the
errored queue.  Returns the new pool state together with the updated
entry (the caller's view of the mutated pointer). -/
def MarkError (bp : PoolState) (conn : BackendConn) (now : Nat) :
    PoolState × BackendConn :=
  let conn2 : BackendConn :=
    { conn with info := ⟨some now, conn.info.errorCount + 1⟩ }
  ({ bp with
      inUseMap := inUseDelete bp.inUseMap conn.connUrl,
      erroredConnections := bp.erroredConnections ++ [conn2] }, conn2)

/-- tryAndFetchConnectionFromIdleList (part_008 lines 306-315): pops
the front of the idle queue under the idle mutex. -/
def tryAndFetchConnectionFromIdleList (bp : PoolState) :
    Option BackendConn × PoolState :=
  match bp.idleConnections with
  | [] => (none, bp)
  | conn :: rest => (some conn, { bp with idleConnections := rest })

/-- One productive pass of the idle-connection filler goroutine
(part_008 lines 317-341): when the idle counter is not above
maxIdleConnections and an available URL exists, moves the front URL
into a fresh idle entry with no live conn and increments the counter.
The sleep-only passes leave the state unchanged and are not modelled
as separate steps. -/
def idleConnectionFillerStep (bp : PoolState) : PoolState :=
  if bp.idleConnCount > bp.maxIdleConnections then bp
  else
    match bp.availableBackendUrls with
    | [] => bp
    | url :: rest =>
      { bp with
          availableBackendUrls := rest,
          idleConnCount := bp.idleConnCount + 1,
          idleConnections := bp.idleConnections ++ [⟨none, url, ⟨none, 0⟩⟩] }

/-- One pass of the errored-connection refresher goroutine (part_008
lines 343-362): pops the front errored entry and either clears its
conn and pushes it back to idle (errorCount below the cap) or drops it
permanently.  Note that the recycle path does not touch
idleConnCount. -/
def erroredConnectionRefresherStep (bp : PoolState) : PoolState :=
  match bp.erroredConnections with
  | [] => bp
  | conn :: rest =>
    if conn.info.errorCount < bp.maxAllowedErrorCount then
      { bp with
          erroredConnections := rest,
          idleConnections := bp.idleConnections ++ [{ conn with Conn := none }] }
    else
      { bp with erroredConnections := rest }

/-- Outcome of one pass of GetConn's for-loop: retry (back off when
the idle queue was empty, or after the MarkError of a dial failure) or
return a connection. -/
inductive GetConnStep where
  | retry (bp2 : PoolState)
  | done (conn : BackendConn) (bp2 : PoolState)
deriving DecidableEq, Repr

/-- One pass of GetConn's for-loop (part_008 lines 257-276): pop the
front idle entry (retrying when there is none), dial it when it has no
live conn (marking it errored and retrying on dial failure), then
decrement idleConnCount, store it in the in-use map and return it. -/
def getConnIteration (dial : Nat → Option Nat) (now : Nat) (bp : PoolState) :
    GetConnStep :=
  match tryAndFetchConnectionFromIdleList bp with
  | (none, bp2) => .retry bp2
  | (some conn, bp2) =>
    match conn.Conn with
    | none =>
      match dial conn.connUrl with
      | none => .retry (MarkError bp2 conn now).1
      | some netConn =>
        .done { conn with Conn := some netConn }
          { bp2 with
              idleConnCount := bp2.idleConnCount - 1,
              inUseMap := inUseStore bp2.inUseMap { conn with Conn := some netConn } }
    | some _ =>
      .done conn
        { bp2 with
            idleConnCount := bp2.idleConnCount - 1,
            inUseMap := inUseStore bp2.inUseMap conn }

/-- GetConn (part_008 lines 255-277).  dial is the newConn oracle
(part_008 lines 364-374): per the websocket.Dial contract it yields a
non-nil connection value exactly when its error is nil, so a
successful dial is some value.  now stamps the MarkError performed on
a dial failure.  The source loops forever, sleeping in backOffWait
when the idle queue is empty; fuel bounds how many iterations are
examined, with none meaning the call is still blocked after fuel
iterations. -/
def GetConn (dial : Nat → Option Nat) (now : Nat) :
    Nat → PoolState → Option (BackendConn × PoolState)
  | 0, _ => none
  | fuel + 1, bp =>
    match getConnIteration dial now bp with
    | .retry bp2 => GetConn dial now fuel bp2
    | .done conn bp2 => some (conn, bp2)

/-- All URLs present across the four pool locations (available, idle,
in-use, errored), with multiplicity. -/
def poolUrls (bp : PoolState) : List Nat :=
  bp.availableBackendUrls ++ bp.idleConnections.map BackendConn.connUrl
    ++ bp.inUseMap.map BackendConn.connUrl
    ++ bp.erroredConnections.map BackendConn.connUrl

/-- The pool invariant: at most one entry per URL across the four
locations combined (spec sections 3 and 8, invariant 1), strengthened
with the fact that every present URL is registered, which the
induction needs. -/
def poolInv (bp : PoolState) : Prop :=
  (poolUrls bp).Nodup ∧ ∀ u ∈ poolUrls bp, u ∈ bp.registeredBackendUrls

instance (bp : PoolState) : Decidable (poolInv bp) := by
  unfold poolInv
  exact instDecidableAnd

/-- A public-interface or background operation on the pool, used to
quantify over arbitrary operation sequences. -/
inductive PoolOp where
  | add (url : Nat)
  | filler
  | refresher
  | mark (conn : BackendConn) (now : Nat)
  | get (now fuel : Nat)
deriving Repr

/-- Applies one operation to the pool state; a GetConn still blocked
after its fuel leaves the observed state unchanged. -/
def applyOp (dial : Nat → Option Nat) (bp : PoolState) : PoolOp → PoolState
  | .add url => (AddToPool bp url).1
  | .filler => idleConnectionFillerStep bp
  | .refresher => erroredConnectionRefresherStep bp
  | .mark conn now => (MarkError bp conn now).1
  | .get now fuel =>
    match GetConn dial now fuel bp with
    | some (_, bp2) => bp2
    | none => bp

/-- Applies a sequence of pool operations in order. -/
def applyOps (dial : Nat → Option Nat) (bp : PoolState) (ops : List PoolOp) :
    PoolState :=
  ops.foldl (applyOp dial) bp

/-- The pipe manager's client map (clientIds as Nat); source field
clientPipesMap of WebsocketPipeManager. -/
structure ManagerState where
  clientPipesMap : List Nat
deriving DecidableEq, Repr

/-- Result of a CreatePipe call: rejected as a duplicate, or completed
by receiving recv from the completion channel. -/
inductive CreatePipeOutcome where
  | duplicate
  | finished (recv : Option Nat)
deriving DecidableEq, Repr

/-- CreatePipe's effect on the client map (part_006 lines 209-242):
the body checks clientPipesMap for the clientId (returning the
duplicate error when present), stores the new pipe under clientId,
then blocks on the completion channel and returns the received value;
no statement of the body deletes the clientId from the map.  recv
abstracts the value the blocking receive yields when the call
completes. -/
def CreatePipe (m : ManagerState) (clientId : Nat) (recv : Option Nat) :
    CreatePipeOutcome × ManagerState :=
  if clientId ∈ m.clientPipesMap then (.duplicate, m)
  else (.finished recv, ⟨clientId :: m.clientPipesMap⟩)

/-- A dial oracle that always succeeds with the given value. -/
def dialAlways (v : Nat) : Nat → Option Nat := fun _ => some v

/-- A dial oracle that always fails. -/
def dialNever : Nat → Option Nat := fun _ => none

/-- An empty pool with the given configuration, as NewBackendConnPool
builds before the background goroutines run. -/
def emptyPool (maxIdle : Int) (maxErr : Nat) : PoolState :=
  ⟨[], [], [], [], [], 0, maxIdle, maxErr⟩

/-- A default entry used only to destructure concrete Option results
below. -/
def defaultConn : BackendConn := ⟨none, 0, ⟨none, 0⟩⟩

/-- Trace refuting C6: register URL 0, let the filler idle it, pop it
as GetConn does, hit a dial failure (first MarkError), then a second
MarkError on the handle while the entry is already errored. -/
def c6s2 : PoolState :=
  idleConnectionFillerStep (AddToPool (emptyPool 5 100) 0).1

/-- The popped entry and the pool state after the pop. -/
def c6fetch : Option BackendConn × PoolState :=
  tryAndFetchConnectionFromIdleList c6s2

/-- State and handle after the dial-failure MarkError. -/
def c6m1 : PoolState × BackendConn :=
  MarkError c6fetch.2 (c6fetch.1.getD defaultConn) 1

/-- State after a second MarkError on the already-errored handle. -/
def c6m2 : PoolState × BackendConn := MarkError c6m1.1 c6m1.2 2

/-- State after the refresher recycles the front copy of the
duplicated entry. -/
def c6s6 : PoolState := erroredConnectionRefresherStep c6m2.1

/-- Pool with one errored entry for URL 3, used against C7. -/
def c7conn : BackendConn := ⟨none, 3, ⟨some 5, 1⟩⟩

/-- A pool state whose errored queue already holds c7conn. -/
def c7pool : PoolState := ⟨[], [3], [], [], [c7conn], 0, 5, 100⟩

/-- Pool with one undialed idle entry for URL 0, used as the C8
witness input. -/
def c8pool : PoolState := ⟨[], [0], [], [⟨none, 0, ⟨none, 0⟩⟩], [], 1, 5, 100⟩

/-- The entry GetConn hands out from c8pool. -/
def c8res : BackendConn := ⟨some 7, 0, ⟨none, 0⟩⟩

/-- The pool state after the c8pool hand-out. -/
def c8post : PoolState := ⟨[], [0], [⟨some 7, 0, ⟨none, 0⟩⟩], [], [], 0, 5, 100⟩

/-- Trace for C10, mirroring the ShouldRemoveConnectionIfReachedMax
ErrorCount test (part_005 lines 80-109): one URL, maxAllowedErrorCount
2, two GetConn/MarkError rounds with a refresher pass after each. -/
def c10s2 : PoolState :=
  idleConnectionFillerStep (AddToPool (emptyPool 5 2) 0).1

/-- First hand-out. -/
def c10g1 : BackendConn × PoolState :=
  (GetConn (dialAlways 7) 10 1 c10s2).getD (defaultConn, c10s2)

/-- After the first MarkError and refresher recycle. -/
def c10s5 : PoolState :=
  erroredConnectionRefresherStep (MarkError c10g1.2 c10g1.1 11).1

/-- Second hand-out. -/
def c10g2 : BackendConn × PoolState :=
  (GetConn (dialAlways 7) 12 1 c10s5).getD (defaultConn, c10s5)

/-- After the second MarkError and the refresher pass that drops the
entry permanently. -/
def c10s8 : PoolState :=
  erroredConnectionRefresherStep (MarkError c10g2.2 c10g2.1 13).1

/-- The errChan sends of the read-error tail in the CopyToBackend
direction are empty: the source's client-side sends are commented
out. -/
lemma readErrTail_toBackend_emits (pep : PipeState) (r : ReadOutcome)
    (wrote : List Nat) : (readErrTail .CopyToBackend pep r wrote).emits = [] := by
  rcases r with ⟨b, e⟩
  rcases e with _ | re
  · rfl
  · cases re <;> rfl

/-- Every errChan send of the read-error tail in the CopyFromBacked
direction carries the freshly stored BackendErr, which is a non-nil
error value. -/
lemma readErrTail_fromBacked_emits_ne_none (pep : PipeState) (r : ReadOutcome)
    (wrote : List Nat) (e : Option Nat)
    (he : e ∈ (readErrTail .CopyFromBacked pep r wrote).emits) : e ≠ none := by
  rcases r with ⟨b, err⟩
  rcases err with _ | re
  · simp [readErrTail] at he
  · unfold readErrTail at he
    by_cases hb : pep.BackendErr = none
    · simp only [hb, if_true] at he
      split at he <;> simp_all
    · simp only [hb, if_false] at he
      split at he <;> simp_all

/-- The errChan sends of the write section in the CopyToBackend
direction are empty: those sends are commented out in the source. -/
lemma writeAndTail_toBackend_emits (pep : PipeState) (r : ReadOutcome)
    (buf : List Nat) (nrw : Nat) (w : WriteOutcome) :
    (writeAndTail .CopyToBackend pep r buf nrw w).emits = [] := by
  unfold writeAndTail
  split_ifs <;> first | rfl | exact readErrTail_toBackend_emits _ _ _

/-- Every errChan send of the write section in the CopyFromBacked
direction is a non-nil error value. -/
lemma writeAndTail_fromBacked_emits_ne_none (pep : PipeState) (r : ReadOutcome)
    (buf : List Nat) (nrw : Nat) (w : WriteOutcome) (e : Option Nat)
    (he : e ∈ (writeAndTail .CopyFromBacked pep r buf nrw w).emits) : e ≠ none := by
  unfold writeAndTail at he
  split_ifs at he <;>
    first
      | simp at he
      | exact readErrTail_fromBacked_emits_ne_none _ _ _ _ he

/-- Occurrence count of a URL across the four pool locations, split by
location. -/
lemma count_poolUrls (bp : PoolState) (v : Nat) :
    (poolUrls bp).count v
      = bp.availableBackendUrls.count v
        + (bp.idleConnections.map BackendConn.connUrl).count v
        + (bp.inUseMap.map BackendConn.connUrl).count v
        + (bp.erroredConnections.map BackendConn.connUrl).count v := by
  simp [poolUrls, List.count_append]
  omega

/-- Counting URLs of an in-use map after deleting one key. -/
lemma count_map_filter_ne (m : List BackendConn) (u v : Nat) :
    ((m.filter (fun e => e.connUrl != u)).map BackendConn.connUrl).count v
      = if v = u then 0 else (m.map BackendConn.connUrl).count v := by
  induction m with
  | nil => simp
  | cons c t ih =>
    rw [List.filter_cons]
    by_cases hcu : c.connUrl = u
    · simp only [hcu, bne_self_eq_false, Bool.false_eq_true, if_false]
      rw [ih]
      by_cases hv : v = u
      · simp [hv]
      · have hcv : ¬(c.connUrl = v) := by rw [hcu]; exact fun h => hv h.symm
        simp [hv, List.count_cons, hcv]
    · have hb : (c.connUrl != u) = true := by simp [hcu]
      simp only [hb, if_true, List.map_cons, List.count_cons, ih]
      by_cases hv : v = u
      · subst hv
        simp [hcu]
      · simp [hv]

/-- Counting URLs of an in-use map after a keyed store. -/
lemma count_map_inUseStore (m : List BackendConn) (c : BackendConn) (v : Nat) :
    ((inUseStore m c).map BackendConn.connUrl).count v
      = if v = c.connUrl then 1 else (m.map BackendConn.connUrl).count v := by
  unfold inUseStore
  rw [List.map_append, List.count_append, count_map_filter_ne]
  by_cases h : v = c.connUrl <;> simp [h, List.count_cons]

/-- URL counts across the pool after a MarkError whose argument is
absent from the available, idle and errored locations: the argument's
URL ends up with exactly one occurrence (the freshly enqueued errored
entry) and every other URL keeps its count. -/
lemma count_poolUrls_MarkError (bp : PoolState) (conn : BackendConn) (now : Nat)
    (hA : conn.connUrl ∉ bp.availableBackendUrls)
    (hIdle : conn.connUrl ∉ bp.idleConnections.map BackendConn.connUrl)
    (hErr : conn.connUrl ∉ bp.erroredConnections.map BackendConn.connUrl)
    (v : Nat) :
    (poolUrls (MarkError bp conn now).1).count v
      = if v = conn.connUrl then 1 else (poolUrls bp).count v := by
  rw [count_poolUrls]
  by_cases hv : v = conn.connUrl
  · subst hv
    rw [if_pos rfl]
    simp [MarkError, inUseDelete, count_map_filter_ne, List.count_append,
      List.count_eq_zero_of_not_mem hA, List.count_eq_zero_of_not_mem hIdle,
      List.count_eq_zero_of_not_mem hErr]
  · rw [if_neg hv, count_poolUrls]
    have hcv : ¬(conn.connUrl = v) := fun h => hv h.symm
    simp [MarkError, inUseDelete, count_map_filter_ne, hv, List.count_append,
      List.count_cons, hcv]

/-- MarkError preserves the pool invariant provided its argument's URL
is not currently in the available, idle, or errored locations (it may
or may not be the in-use entry for that URL) and the URL is
registered.  A MarkError violating that precondition can break the
invariant: see the C6 counterexample. -/
lemma poolInv_MarkError (bp : PoolState) (conn : BackendConn) (now : Nat)
    (hI : poolInv bp)
    (hA : conn.connUrl ∉ bp.availableBackendUrls)
    (hIdle : conn.connUrl ∉ bp.idleConnections.map BackendConn.connUrl)
    (hErr : conn.connUrl ∉ bp.erroredConnections.map BackendConn.connUrl)
    (hReg : conn.connUrl ∈ bp.registeredBackendUrls) :
    poolInv (MarkError bp conn now).1 := by
  obtain ⟨hnd, hsub⟩ := hI
  constructor
  · rw [List.nodup_iff_count_le_one]
    intro v
    rw [count_poolUrls_MarkError bp conn now hA hIdle hErr v]
    split_ifs with hv
    · exact le_refl 1
    · exact (List.nodup_iff_count_le_one.mp hnd) v
  · intro v hv
    have hpos : 0 < (poolUrls (MarkError bp conn now).1).count v :=
      List.count_pos_iff.mpr hv
    rw [count_poolUrls_MarkError bp conn now hA hIdle hErr v] at hpos
    by_cases hveq : v = conn.connUrl
    · subst hveq
      exact hReg
    · rw [if_neg hveq] at hpos
      exact hsub v (List.count_pos_iff.mp hpos)

/-- Popping the front idle entry preserves the invariant; afterwards
the popped entry's URL is absent from every location, and it is
registered. -/
lemma poolInv_pop (bp : PoolState) (conn : BackendConn) (rest : List BackendConn)
    (hI : poolInv bp) (hidle : bp.idleConnections = conn :: rest) :
    poolInv { bp with idleConnections := rest }
  ∧ conn.connUrl ∉ poolUrls { bp with idleConnections := rest }
  ∧ conn.connUrl ∈ bp.registeredBackendUrls := by
  obtain ⟨hnd, hsub⟩ := hI
  have hcount : ∀ v, (poolUrls bp).count v
      = (poolUrls { bp with idleConnections := rest }).count v
        + (if conn.connUrl = v then 1 else 0) := by
    intro v
    rw [count_poolUrls, count_poolUrls]
    split_ifs with hcv
    · simp [hidle, List.count_cons, hcv]
      omega
    · simp [hidle, List.count_cons, hcv]
  refine ⟨⟨?_, ?_⟩, ?_, ?_⟩
  · rw [List.nodup_iff_count_le_one]
    intro v
    have h1 := (List.nodup_iff_count_le_one.mp hnd) v
    rw [hcount v] at h1
    omega
  · intro v hv
    apply hsub
    have h2 : 0 < (poolUrls bp).count v := by
      have := List.count_pos_iff.mpr hv
      rw [hcount v]
      omega
    exact List.count_pos_iff.mp h2
  · intro hmem
    have h1 : 0 < (poolUrls { bp with idleConnections := rest }).count conn.connUrl :=
      List.count_pos_iff.mpr hmem
    have h2 := (List.nodup_iff_count_le_one.mp hnd) conn.connUrl
    rw [hcount conn.connUrl, if_pos rfl] at h2
    omega
  · apply hsub
    simp [poolUrls, hidle]

/-- Storing an entry whose URL is absent from the pool into the in-use
map (together with any idleConnCount update) preserves the
invariant. -/
lemma poolInv_store (bp : PoolState) (conn : BackendConn) (k : Int)
    (hI : poolInv bp) (hout : conn.connUrl ∉ poolUrls bp)
    (hReg : conn.connUrl ∈ bp.registeredBackendUrls) :
    poolInv { bp with idleConnCount := k,
                      inUseMap := inUseStore bp.inUseMap conn } := by
  obtain ⟨hnd, hsub⟩ := hI
  have hzero : (poolUrls bp).count conn.connUrl = 0 :=
    List.count_eq_zero_of_not_mem hout
  have hcount : ∀ v,
      (poolUrls { bp with idleConnCount := k, inUseMap := inUseStore bp.inUseMap conn }).count v
      = if v = conn.connUrl then 1 + bp.availableBackendUrls.count v
            + (bp.idleConnections.map BackendConn.connUrl).count v
            + (bp.erroredConnections.map BackendConn.connUrl).count v
        else (poolUrls bp).count v := by
    intro v
    rw [count_poolUrls]
    split_ifs with hv
    · simp only [count_map_inUseStore, if_pos hv]
      omega
    · rw [count_poolUrls]
      simp only [count_map_inUseStore, if_neg hv]
  constructor
  · rw [List.nodup_iff_count_le_one]
    intro v
    rw [hcount v]
    split_ifs with hv
    · subst hv
      rw [count_poolUrls] at hzero
      omega
    · exact (List.nodup_iff_count_le_one.mp hnd) v
  · intro v hv
    have hpos :
        0 < (poolUrls { bp with idleConnCount := k, inUseMap := inUseStore bp.inUseMap conn }).count v :=
      List.count_pos_iff.mpr hv
    rw [hcount v] at hpos
    by_cases hveq : v = conn.connUrl
    · subst hveq
      exact hReg
    · rw [if_neg hveq] at hpos
      exact hsub v (List.count_pos_iff.mp hpos)

/-- AddToPool preserves the pool invariant: a registered URL is
rejected, an unregistered one cannot yet occur in any location. -/
lemma poolInv_AddToPool (bp : PoolState) (url : Nat) (hI : poolInv bp) :
    poolInv (AddToPool bp url).1 := by
  obtain ⟨hnd, hsub⟩ := hI
  unfold AddToPool
  split_ifs with hreg
  · exact ⟨hnd, hsub⟩
  · dsimp only
    have hout : url ∉ poolUrls bp := fun hmem => hreg (hsub url hmem)
    have hzero : (poolUrls bp).count url = 0 := List.count_eq_zero_of_not_mem hout
    have hcount : ∀ v,
        (poolUrls { bp with availableBackendUrls := bp.availableBackendUrls ++ [url],
                            registeredBackendUrls := url :: bp.registeredBackendUrls }).count v
        = (poolUrls bp).count v + (if url = v then 1 else 0) := by
      intro v
      rw [count_poolUrls, count_poolUrls]
      by_cases hv : url = v
      · simp [List.count_append, List.count_singleton, hv]
        omega
      · simp [List.count_append, List.count_singleton, hv]
    constructor
    · rw [List.nodup_iff_count_le_one]
      intro v
      rw [hcount v]
      have h1 := (List.nodup_iff_count_le_one.mp hnd) v
      by_cases hv : url = v
      · subst hv
        rw [if_pos rfl]
        omega
      · rw [if_neg hv]
        omega
    · intro v hv
      have hpos := List.count_pos_iff.mpr hv
      rw [hcount v] at hpos
      by_cases hveq : url = v
      · subst hveq
        exact List.mem_cons_self url _
      · rw [if_neg hveq] at hpos
        simp only [Nat.add_zero] at hpos
        exact List.mem_cons_of_mem _ (hsub v (List.count_pos_iff.mp hpos))

/-- The idle-filler pass preserves the pool invariant: it moves one
URL from available into a fresh idle entry. -/
lemma poolInv_filler (bp : PoolState) (hI : poolInv bp) :
    poolInv (idleConnectionFillerStep bp) := by
  obtain ⟨hnd, hsub⟩ := hI
  unfold idleConnectionFillerStep
  split_ifs with hcnt
  · exact ⟨hnd, hsub⟩
  · rcases havail : bp.availableBackendUrls with _ | ⟨u, rest⟩
    · exact ⟨hnd, hsub⟩
    · have hcount : ∀ v, (poolUrls { bp with
          availableBackendUrls := rest,
          idleConnCount := bp.idleConnCount + 1,
          idleConnections := bp.idleConnections ++ [⟨none, u, ⟨none, 0⟩⟩] }).count v
          = (poolUrls bp).count v := by
        intro v
        rw [count_poolUrls, count_poolUrls]
        simp [havail, List.count_append, List.count_cons]
        omega
      constructor
      · rw [List.nodup_iff_count_le_one]
        intro v
        rw [hcount v]
        exact (List.nodup_iff_count_le_one.mp hnd) v
      · intro v hv
        apply hsub
        apply List.count_pos_iff.mp
        rw [← hcount v]
        exact List.count_pos_iff.mpr hv

/-- The errored-refresher pass preserves the pool invariant: it moves
the front errored entry to idle or drops it. -/
lemma poolInv_refresher (bp : PoolState) (hI : poolInv bp) :
    poolInv (erroredConnectionRefresherStep bp) := by
  obtain ⟨hnd, hsub⟩ := hI
  unfold erroredConnectionRefresherStep
  rcases herr : bp.erroredConnections with _ | ⟨c, rest⟩
  · exact ⟨hnd, hsub⟩
  · dsimp only
    split_ifs with hcnt
    · -- recycle: counts are preserved exactly
      have hcount : ∀ v, (poolUrls { bp with
          erroredConnections := rest,
          idleConnections := bp.idleConnections ++ [{ c with Conn := none }] }).count v
          = (poolUrls bp).count v := by
        intro v
        rw [count_poolUrls, count_poolUrls]
        simp [herr, List.count_append, List.count_cons]
        omega
      constructor
      · rw [List.nodup_iff_count_le_one]
        intro v
        rw [hcount v]
        exact (List.nodup_iff_count_le_one.mp hnd) v
      · intro v hv
        apply hsub
        apply List.count_pos_iff.mp
        rw [← hcount v]
        exact List.count_pos_iff.mpr hv
    · -- drop: counts can only decrease
      have hcount : ∀ v, (poolUrls { bp with erroredConnections := rest }).count v
          ≤ (poolUrls bp).count v := by
        intro v
        rw [count_poolUrls, count_poolUrls]
        simp [herr, List.count_cons]
      constructor
      · rw [List.nodup_iff_count_le_one]
        intro v
        exact le_trans (hcount v) ((List.nodup_iff_count_le_one.mp hnd) v)
      · intro v hv
        apply hsub
        apply List.count_pos_iff.mp
        have := List.count_pos_iff.mpr hv
        have h2 := hcount v
        omega

/-- Exhaustive description of one GetConn loop pass: a retry keeps the
registered set and the idle counter and preserves the invariant; a
done pass keeps the registered set, decrements the idle counter,
returns an entry with a live conn, and preserves the invariant. -/
lemma getConnIteration_cases (dial : Nat → Option Nat) (now : Nat) (bp : PoolState) :
    (∃ bp2, getConnIteration dial now bp = .retry bp2
      ∧ bp2.registeredBackendUrls = bp.registeredBackendUrls
      ∧ bp2.idleConnCount = bp.idleConnCount
      ∧ (poolInv bp → poolInv bp2))
  ∨ (∃ conn bp2, getConnIteration dial now bp = .done conn bp2
      ∧ conn.Conn ≠ none
      ∧ bp2.registeredBackendUrls = bp.registeredBackendUrls
      ∧ bp2.idleConnCount = bp.idleConnCount - 1
      ∧ (poolInv bp → poolInv bp2)) := by
  unfold getConnIteration tryAndFetchConnectionFromIdleList
  rcases hidle : bp.idleConnections with _ | ⟨c, rest⟩
  · exact Or.inl ⟨bp, rfl, rfl, rfl, id⟩
  · dsimp only
    rcases hc : c.Conn with _ | nc
    · rcases hd : dial c.connUrl with _ | netc
      · left
        refine ⟨_, rfl, rfl, rfl, ?_⟩
        intro hI
        obtain ⟨hpop, hout, hreg⟩ := poolInv_pop bp c rest hI hidle
        refine poolInv_MarkError _ c now hpop ?_ ?_ ?_ hreg
        · exact fun hm => hout (by
            simp only [poolUrls, List.mem_append]
            exact Or.inl (Or.inl (Or.inl hm)))
        · exact fun hm => hout (by
            simp only [poolUrls, List.mem_append]
            exact Or.inl (Or.inl (Or.inr hm)))
        · exact fun hm => hout (by
            simp only [poolUrls, List.mem_append]
            exact Or.inr hm)
      · right
        refine ⟨_, _, rfl, by simp, rfl, rfl, ?_⟩
        intro hI
        obtain ⟨hpop, hout, hreg⟩ := poolInv_pop bp c rest hI hidle
        exact poolInv_store _ { c with Conn := some netc } _ hpop hout hreg
    · right
      refine ⟨_, _, rfl, by simp [hc], rfl, rfl, ?_⟩
      intro hI
      obtain ⟨hpop, hout, hreg⟩ := poolInv_pop bp c rest hI hidle
      exact poolInv_store _ c _ hpop hout hreg

/-- A successful GetConn returns an entry with a live conn, preserves
the registered set, decrements idleConnCount by exactly one across the
whole blocking loop, and preserves the pool invariant. -/
lemma GetConn_characterization (dial : Nat → Option Nat) (now : Nat) :
    ∀ (fuel : Nat) (bp : PoolState) (conn : BackendConn) (bp2 : PoolState),
      GetConn dial now fuel bp = some (conn, bp2) →
      conn.Conn ≠ none
      ∧ bp2.registeredBackendUrls = bp.registeredBackendUrls
      ∧ bp2.idleConnCount = bp.idleConnCount - 1
      ∧ (poolInv bp → poolInv bp2) := by
  intro fuel
  induction fuel with
  | zero =>
    intro bp conn bp2 h
    exact absurd h (by simp [GetConn])
  | succ n ih =>
    intro bp conn bp2 h
    unfold GetConn at h
    rcases getConnIteration_cases dial now bp with
        ⟨bp3, hit, hreg, hcnt, hinv⟩ | ⟨conn3, bp3, hit, hlive, hreg, hcnt, hinv⟩
    · rw [hit] at h
      obtain ⟨h1, h2, h3, h4⟩ := ih bp3 conn bp2 h
      refine ⟨h1, h2.trans hreg, ?_, fun hI => h4 (hinv hI)⟩
      rw [h3, hcnt]
    · rw [hit] at h
      dsimp only at h
      injection h with h5
      injection h5 with hA hB
      subst hA
      subst hB
      exact ⟨hlive, hreg, hcnt, hinv⟩

/-- Every pool operation leaves a registered URL registered. -/
lemma registered_applyOp (dial : Nat → Option Nat) (bp : PoolState) (op : PoolOp)
    (u : Nat) (hu : u ∈ bp.registeredBackendUrls) :
    u ∈ (applyOp dial bp op).registeredBackendUrls := by
  cases op with
  | add url =>
    simp only [applyOp, AddToPool]
    split_ifs
    · exact hu
    · exact List.mem_cons_of_mem _ hu
  | filler =>
    simp only [applyOp]
    unfold idleConnectionFillerStep
    split_ifs
    · exact hu
    · rcases h : bp.availableBackendUrls with _ | ⟨a, rest⟩ <;> exact hu
  | refresher =>
    simp only [applyOp]
    unfold erroredConnectionRefresherStep
    rcases h : bp.erroredConnections with _ | ⟨c, rest⟩
    · exact hu
    · dsimp only
      split_ifs <;> exact hu
  | mark conn now => exact hu
  | get now fuel =>
    simp only [applyOp]
    rcases hg : GetConn dial now fuel bp with _ | ⟨conn, bp2⟩
    · simp only [hg]
      exact hu
    · simp only [hg]
      rw [(GetConn_characterization dial now fuel bp conn bp2 hg).2.1]
      exact hu

/-- A registered URL stays registered across any operation
sequence. -/
lemma registered_applyOps (dial : Nat → Option Nat) (ops : List PoolOp) :
    ∀ (bp : PoolState) (u : Nat), u ∈ bp.registeredBackendUrls →
      u ∈ (applyOps dial bp ops).registeredBackendUrls := by
  induction ops with
  | nil => intro bp u hu; exact hu
  | cons op rest ih =>
    intro bp u hu
    exact ih (applyOp dial bp op) u (registered_applyOp dial bp op u hu)

end InterruptibleWebsocketProxy

namespace InterruptibleWebsocketProxy

/-- C1: the claim says the forward loop, on reading fresh bytes with a
healthy backend and a nonempty staging buffer, writes the concatenation
backendBuffer ++ b to the backend in one call and empties the buffer on
full success, delivering every client byte exactly once in read order.
Evaluating the embedded loop body at a staging buffer of two bytes and
one freshly read byte, with the write fully succeeding, shows the code
writes only the two previously buffered bytes, clears the buffer, and
keeps looping: the fresh byte 12 is neither delivered nor retained,
because the source sets nr to len(pep.backendBuffer) after the append
instead of to the concatenation's length. -/
theorem C1_flush_write_drops_fresh_bytes :
    (copyBufferStep .CopyToBackend ⟨none, [10, 11], 100⟩ ⟨[12], none⟩ ⟨2, none⟩).wrote
        = [10, 11]
  ∧ (copyBufferStep .CopyToBackend ⟨none, [10, 11], 100⟩ ⟨[12], none⟩ ⟨2, none⟩).wrote
        ≠ [10, 11] ++ [12]
  ∧ (copyBufferStep .CopyToBackend ⟨none, [10, 11], 100⟩ ⟨[12], none⟩ ⟨2, none⟩).state.backendBuffer
        = []
  ∧ (copyBufferStep .CopyToBackend ⟨none, [10, 11], 100⟩ ⟨[12], none⟩ ⟨2, none⟩).exit
        = none := by
  decide

/-- C2 counterexample: the claim says len(backendBuffer) never exceeds
bufferByteLimit, in particular across the append performed after a
failed backend write.  With limit 16, an empty buffer, a healthy
backend, a 17-byte read and a failing write, that unguarded append
leaves 17 bytes in the buffer, exceeding the limit. -/
theorem C2_counterexample_unguarded_append :
    (copyBufferStep .CopyToBackend ⟨none, [], 16⟩
        ⟨List.replicate 17 1, none⟩ ⟨0, some 5⟩).state.backendBuffer.length = 17
  ∧ ¬ ((copyBufferStep .CopyToBackend ⟨none, [], 16⟩
        ⟨List.replicate 17 1, none⟩ ⟨0, some 5⟩).state.backendBuffer.length ≤ 16) := by
  decide

/-- C2 (amended): the staging append performed while BackendErr is
non-nil is guarded, so starting from a buffer within the limit one
forward-loop iteration in that mode either terminates with the
buffer-overflow break or keeps len(backendBuffer) ≤ bufferByteLimit;
the bound does NOT hold across the unguarded append after a failed
backend write (see the counterexample). -/
theorem C2_guarded_append_preserves_bound (pep : PipeState) (r : ReadOutcome)
    (w : WriteOutcome) (hb : pep.BackendErr ≠ none)
    (hlen : pep.backendBuffer.length ≤ pep.bufferByteLimit) :
    (copyBufferStep .CopyToBackend pep r w).exit = some .bufferOverflow
  ∨ (copyBufferStep .CopyToBackend pep r w).state.backendBuffer.length
      ≤ pep.bufferByteLimit := by
  rcases r with ⟨b, err⟩
  by_cases hn : b.length > 0
  · by_cases hov : pep.backendBuffer.length + b.length > pep.bufferByteLimit
    · left
      simp [copyBufferStep, hn, hb, hov]
    · right
      simp only [copyBufferStep, reduceCtorEq, false_and, if_false, hn, if_true]
      rw [if_pos ⟨trivial, hb⟩, if_neg hov]
      simpa using Nat.le_of_not_lt hov
  · right
    rcases err with _ | re
    · simpa [copyBufferStep, readErrTail, hn] using hlen
    · cases re <;> simpa [copyBufferStep, readErrTail, hn] using hlen

/-- Witness for the amended C2 theorem at a concrete pipe state. -/
theorem C2_guarded_append_preserves_bound_witness :
    (copyBufferStep .CopyToBackend ⟨some 7, [1, 2], 4⟩ ⟨[3], none⟩ ⟨0, none⟩).exit
        = some .bufferOverflow
  ∨ (copyBufferStep .CopyToBackend ⟨some 7, [1, 2], 4⟩ ⟨[3], none⟩ ⟨0, none⟩).state.backendBuffer.length
        ≤ (4 : Nat) :=
  C2_guarded_append_preserves_bound ⟨some 7, [1, 2], 4⟩ ⟨[3], none⟩ ⟨0, none⟩
    (by decide) (by decide)

/-- C3: the claim says a clean client EOF terminates the forward loop
cleanly and makes the blocked CreatePipe call return nil.  The first
half holds: the loop breaks at the EOF check without recording an
error and without touching the pipe state.  The second half fails in
the code: the forward loop never sends anything on errChan (those
sends are commented out in the source), every send of the backward
loop is a non-nil backend error, and CreatePipe returns only a value
received from the channel, so after a clean client EOF with a healthy
backend nothing is ever sent and the blocked CreatePipe call never
returns at all, let alone nil. -/
theorem C3_clean_eof_not_surfaced :
    (∀ (pep : PipeState) (w : WriteOutcome),
        copyBufferStep .CopyToBackend pep ⟨[], some .eof⟩ w
          = ⟨some .cleanEOF, pep, [], []⟩)
  ∧ (∀ (pep : PipeState) (r : ReadOutcome) (w : WriteOutcome),
        (copyBufferStep .CopyToBackend pep r w).emits = [])
  ∧ (∀ (pep : PipeState) (r : ReadOutcome) (w : WriteOutcome) (e : Option Nat),
        e ∈ (copyBufferStep .CopyFromBacked pep r w).emits → e ≠ none)
  ∧ createPipeReturn [] = none := by
  refine ⟨fun pep w => rfl, ?_, ?_, rfl⟩
  · intro pep r w
    unfold copyBufferStep
    split_ifs <;>
      first
        | rfl
        | exact readErrTail_toBackend_emits _ _ _
        | exact writeAndTail_toBackend_emits _ _ _ _ _
  · intro pep r w e he
    unfold copyBufferStep at he
    split_ifs at he <;>
      first
        | simp at he
        | exact readErrTail_fromBacked_emits_ne_none _ _ _ _ he
        | exact writeAndTail_fromBacked_emits_ne_none _ _ _ _ _ _ he

/-- Witness for the C3 theorem at a concrete pipe state: a clean EOF
iteration of the forward loop, and a concrete backward emission. -/
theorem C3_clean_eof_not_surfaced_witness :
    copyBufferStep .CopyToBackend ⟨none, [], 16⟩ ⟨[], some .eof⟩ ⟨0, none⟩
      = ⟨some .cleanEOF, ⟨none, [], 16⟩, [], []⟩
  ∧ (some 5 : Option Nat) ≠ none :=
  ⟨C3_clean_eof_not_surfaced.1 ⟨none, [], 16⟩ ⟨0, none⟩,
   C3_clean_eof_not_surfaced.2.2.1 ⟨none, [], 16⟩ ⟨[], some (.other 4)⟩ ⟨0, none⟩
     (some 5) (by decide)⟩

/-- C4: the claim says that when, with BackendErr non-nil, appending
freshly read bytes would exceed bufferByteLimit, the pipe raises a
fatal buffer-overflow error, terminates, and that error is returned by
the blocked CreatePipe call.  The overflow break itself happens (first
conjunct), but the iteration sends nothing on errChan (the send at the
break site is commented out in the source), so the modelled CreatePipe,
which returns only a value received from the channel, receives nothing
from this termination: the overflow error is never surfaced. -/
theorem C4_overflow_not_surfaced :
    (copyBufferStep .CopyToBackend ⟨some 3, List.replicate 16 1, 16⟩
        ⟨[9], none⟩ ⟨0, none⟩).exit = some .bufferOverflow
  ∧ (copyBufferStep .CopyToBackend ⟨some 3, List.replicate 16 1, 16⟩
        ⟨[9], none⟩ ⟨0, none⟩).emits = []
  ∧ createPipeReturn (copyBufferStep .CopyToBackend ⟨some 3, List.replicate 16 1, 16⟩
        ⟨[9], none⟩ ⟨0, none⟩).emits = none := by
  decide

/-- C5 counterexample: the claim says that when a CreatePipe call that
stored a pipe returns, the clientId is removed from clientPipesMap, so
a subsequent CreatePipe with the same clientId is not rejected as a
duplicate.  No statement of the CreatePipe body deletes the key: a
first call completing for clientId 0 leaves 0 in the map, and a second
call for clientId 0 is rejected as a duplicate. -/
theorem C5_counterexample :
    (CreatePipe ⟨[]⟩ 0 (some 5)).1 ≠ .duplicate
  ∧ 0 ∈ (CreatePipe ⟨[]⟩ 0 (some 5)).2.clientPipesMap
  ∧ (CreatePipe (CreatePipe ⟨[]⟩ 0 (some 5)).2 0 (some 7)).1 = .duplicate := by
  decide

/-- C5 (amended): CreatePipe never removes the clientId from
clientPipesMap; once a call for a fresh clientId has stored its pipe
and completed, the key is still present and every subsequent
CreatePipe with the same clientId returns the duplicate error. -/
theorem C5_client_never_removed (m : ManagerState) (clientId : Nat)
    (recv recv2 : Option Nat) (h : clientId ∉ m.clientPipesMap) :
    (CreatePipe m clientId recv).1 = .finished recv
  ∧ clientId ∈ (CreatePipe m clientId recv).2.clientPipesMap
  ∧ (CreatePipe (CreatePipe m clientId recv).2 clientId recv2).1 = .duplicate := by
  simp [CreatePipe, h]

/-- Witness for the amended C5 theorem at a concrete manager state. -/
theorem C5_client_never_removed_witness :
    (CreatePipe ⟨[4]⟩ 3 (some 5)).1 = .finished (some 5)
  ∧ 3 ∈ (CreatePipe ⟨[4]⟩ 3 (some 5)).2.clientPipesMap
  ∧ (CreatePipe (CreatePipe ⟨[4]⟩ 3 (some 5)).2 3 (some 7)).1 = .duplicate :=
  C5_client_never_removed ⟨[4]⟩ 3 (some 5) (some 7) (by decide)

/-- C6 counterexample: the claim says that at most one entry per URL
exists across the four pool locations under every interleaving of
AddToPool, GetConn, MarkError and the background tasks.  MarkError has
no guard against already-errored arguments: after AddToPool, a filler
pass, the GetConn pop, a dial-failure MarkError and a second MarkError
on the same handle, the errored queue holds URL 0 twice; one refresher
pass then leaves URL 0 in idle and in errored simultaneously. -/
theorem C6_counterexample :
    (0 ∈ c6s6.idleConnections.map BackendConn.connUrl)
  ∧ (0 ∈ c6s6.erroredConnections.map BackendConn.connUrl)
  ∧ ¬ (poolUrls c6s6).Nodup := by
  decide

/-- C6 (amended): starting from a state satisfying the at-most-one-
entry-per-URL invariant, the invariant is preserved by AddToPool, the
filler pass, the refresher pass, any successful GetConn, and by
MarkError whenever its argument's URL is not already in the available,
idle or errored locations (and is registered) — i.e. by every
interleaving in which MarkError is only applied to in-use or
just-popped entries.  It is not preserved by MarkError on an
already-errored entry (see the counterexample). -/
theorem C6_uniqueness_amended (bp : PoolState) (hI : poolInv bp) :
    (∀ url, poolInv (AddToPool bp url).1)
  ∧ poolInv (idleConnectionFillerStep bp)
  ∧ poolInv (erroredConnectionRefresherStep bp)
  ∧ (∀ conn now, conn.connUrl ∉ bp.availableBackendUrls →
      conn.connUrl ∉ bp.idleConnections.map BackendConn.connUrl →
      conn.connUrl ∉ bp.erroredConnections.map BackendConn.connUrl →
      conn.connUrl ∈ bp.registeredBackendUrls →
      poolInv (MarkError bp conn now).1)
  ∧ (∀ dial now fuel conn bp2,
      GetConn dial now fuel bp = some (conn, bp2) → poolInv bp2) :=
  ⟨fun url => poolInv_AddToPool bp url hI,
   poolInv_filler bp hI,
   poolInv_refresher bp hI,
   fun conn now hA hIdle hErr hReg =>
     poolInv_MarkError bp conn now hI hA hIdle hErr hReg,
   fun dial now fuel conn bp2 h =>
     (GetConn_characterization dial now fuel bp conn bp2 h).2.2.2 hI⟩

/-- Witness for the amended C6 theorem at a concrete pool state. -/
theorem C6_uniqueness_amended_witness :
    poolInv c6s2 ∧ poolInv (idleConnectionFillerStep c6s2) :=
  ⟨by decide, (C6_uniqueness_amended c6s2 (by decide)).2.1⟩

/-- C7 counterexample: the claim says a second MarkError on an entry
already in the errored queue is ignored.  On a pool whose errored
queue holds exactly c7conn, calling MarkError on it again grows the
errored queue to two entries, increments errorCount to 2 and restamps
lastCheckedTime: nothing is ignored. -/
theorem C7_counterexample :
    ((MarkError c7pool c7conn 9).1.erroredConnections.length = 2)
  ∧ ((MarkError c7pool c7conn 9).2.info.errorCount = 2)
  ∧ ((MarkError c7pool c7conn 9).2.info.lastCheckedTime = some 9)
  ∧ ((MarkError c7pool c7conn 9).1.erroredConnections ≠ c7pool.erroredConnections) := by
  decide

/-- C7 (amended): MarkError has no idempotence guard.  A call on an
entry already in the errored queue behaves like any other call: it
appends the entry to the errored queue again, increments its
errorCount and restamps its lastCheckedTime. -/
theorem C7_markError_not_idempotent (bp : PoolState) (conn : BackendConn)
    (now : Nat) (_hmem : conn ∈ bp.erroredConnections) :
    (MarkError bp conn now).1.erroredConnections
      = bp.erroredConnections ++ [(MarkError bp conn now).2]
  ∧ (MarkError bp conn now).2.info.errorCount = conn.info.errorCount + 1
  ∧ (MarkError bp conn now).2.info.lastCheckedTime = some now
  ∧ (MarkError bp conn now).1.erroredConnections.length
      = bp.erroredConnections.length + 1 := by
  refine ⟨rfl, rfl, rfl, ?_⟩
  simp [MarkError]

/-- Witness for the amended C7 theorem at the concrete errored
pool. -/
theorem C7_markError_not_idempotent_witness :
    (MarkError c7pool c7conn 9).1.erroredConnections
      = c7pool.erroredConnections ++ [(MarkError c7pool c7conn 9).2]
  ∧ (MarkError c7pool c7conn 9).2.info.errorCount = c7conn.info.errorCount + 1
  ∧ (MarkError c7pool c7conn 9).2.info.lastCheckedTime = some 9
  ∧ (MarkError c7pool c7conn 9).1.erroredConnections.length
      = c7pool.erroredConnections.length + 1 :=
  C7_markError_not_idempotent c7pool c7conn 9 (by decide)

/-- C8: every value a completed GetConn returns has a live (non-nil)
conn: a popped idle entry is returned only after its conn was found
present or a dial succeeded and was assigned, and per the dial
contract a successful dial is non-nil, so the nil-stream return is
unreachable. -/
theorem C8_GetConn_returns_live (dial : Nat → Option Nat) (now fuel : Nat)
    (bp : PoolState) (conn : BackendConn) (bp2 : PoolState)
    (h : GetConn dial now fuel bp = some (conn, bp2)) : conn.Conn ≠ none :=
  (GetConn_characterization dial now fuel bp conn bp2 h).1

/-- Witness for C8 at a concrete pool with one undialed idle entry and
an always-succeeding dial oracle. -/
theorem C8_GetConn_returns_live_witness :
    GetConn (dialAlways 7) 0 1 c8pool = some (c8res, c8post)
  ∧ c8res.Conn ≠ none :=
  ⟨by decide, C8_GetConn_returns_live (dialAlways 7) 0 1 c8pool c8res c8post (by decide)⟩

/-- C9: no pool operation ever removes a URL from the registered set,
so once registered — in particular after the errored-refresher
permanently drops the URL's entry — every subsequent AddToPool for
that URL returns the duplicate-registration error and leaves the pool
unchanged: a permanently dropped backend cannot be re-registered
through the public interface. -/
theorem C9_dropped_url_never_reregisterable (dial : Nat → Option Nat)
    (bp : PoolState) (u : Nat) (hu : u ∈ bp.registeredBackendUrls)
    (ops : List PoolOp) :
    u ∈ (applyOps dial bp ops).registeredBackendUrls
  ∧ (AddToPool (applyOps dial bp ops) u).2 = some errAlreadyRegistered
  ∧ (AddToPool (applyOps dial bp ops) u).1 = applyOps dial bp ops := by
  have hreg := registered_applyOps dial ops bp u hu
  refine ⟨hreg, ?_, ?_⟩ <;> simp [AddToPool, hreg]

/-- Witness for C9 at the post-drop state of the C10 trace (URL 0 was
permanently dropped there, and remains registered). -/
theorem C9_dropped_url_never_reregisterable_witness :
    0 ∈ (applyOps (dialAlways 7) c10s8 []).registeredBackendUrls
  ∧ (AddToPool (applyOps (dialAlways 7) c10s8 []) 0).2 = some errAlreadyRegistered
  ∧ (AddToPool (applyOps (dialAlways 7) c10s8 []) 0).1 = applyOps (dialAlways 7) c10s8 [] :=
  C9_dropped_url_never_reregisterable (dialAlways 7) c10s8 0 (by decide) []

/-- C10: the errored-refresher recycles an entry back onto idle
without incrementing idleConnCount, while every successful GetConn
decrements idleConnCount; consequently, replaying the
two-hand-out/two-MarkError trace of TestNewBackendConnPool (single
registered URL, maxAllowedErrorCount 2), after the entry is
permanently dropped the counter sits at -1 while all queues are empty,
so idleConnCount does not equal the idle-queue length and is
negative. -/
theorem C10_idleConnCount_drift :
    (∀ (bp : PoolState) (conn : BackendConn) (rest : List BackendConn),
        bp.erroredConnections = conn :: rest →
        conn.info.errorCount < bp.maxAllowedErrorCount →
        (erroredConnectionRefresherStep bp).idleConnCount = bp.idleConnCount
      ∧ (erroredConnectionRefresherStep bp).idleConnections.length
          = bp.idleConnections.length + 1)
  ∧ (∀ (dial : Nat → Option Nat) (now fuel : Nat) (bp : PoolState)
        (conn : BackendConn) (bp2 : PoolState),
        GetConn dial now fuel bp = some (conn, bp2) →
        bp2.idleConnCount = bp.idleConnCount - 1)
  ∧ c10s8.idleConnCount = -1
  ∧ c10s8.idleConnections = []
  ∧ c10s8.erroredConnections = []
  ∧ c10s8.inUseMap = []
  ∧ c10s8.idleConnCount ≠ (c10s8.idleConnections.length : Int) := by
  refine ⟨?_, ?_, by decide, by decide, by decide, by decide, by decide⟩
  · intro bp conn rest herr hcnt
    unfold erroredConnectionRefresherStep
    rw [herr]
    dsimp only
    rw [if_pos hcnt]
    exact ⟨rfl, by simp⟩
  · intro dial now fuel bp conn bp2 h
    exact (GetConn_characterization dial now fuel bp conn bp2 h).2.2.1

/-- Witness for C10's universally quantified parts at concrete states
of the replayed trace. -/
theorem C10_idleConnCount_drift_witness :
    ((erroredConnectionRefresherStep (MarkError c10g1.2 c10g1.1 11).1).idleConnCount
        = (MarkError c10g1.2 c10g1.1 11).1.idleConnCount
      ∧ (erroredConnectionRefresherStep (MarkError c10g1.2 c10g1.1 11).1).idleConnections.length
        = (MarkError c10g1.2 c10g1.1 11).1.idleConnections.length + 1)
  ∧ c10g1.2.idleConnCount = c10s2.idleConnCount - 1 :=
  ⟨C10_idleConnCount_drift.1 (MarkError c10g1.2 c10g1.1 11).1
      ⟨some 7, 0, ⟨some 11, 1⟩⟩ [] (by decide) (by decide),
   C10_idleConnCount_drift.2.1 (dialAlways 7) 10 1 c10s2 c10g1.1 c10g1.2 (by decide)⟩

end InterruptibleWebsocketProxy
